import Mathlib

/-!
Shallow embedding of the text-to-calendar extraction pipeline of
src/scrape_boxing247_text.py (the boxing-calendar repository).

Text is modelled as a list of characters.  The regular expressions of the
source are embedded as specialised, faithful matchers (leftmost match,
greedy and lazy quantifier behaviour reproduced where it is observable).
Python aware-datetime arithmetic is modelled with explicit wall-clock
minute counts and explicit UTC-offset functions; the fold=0 disambiguation
of PEP 495 (pre-transition offset inside a spring-forward gap, earlier
instant for an ambiguous fall-back time) is built into the offset
functions.  Exceptions are modelled with Except / Option: a value of
Except.error stands for a raised exception, and the per-card try/except of
build_events_from_text turns it into a dropped card.

The tz rules embedded here are the tzdata rules for the years the script
can actually run in (2007 and later for the US zones, 1996 and later for
the EU zones, 2023 and later for America/Mexico_City, which is on fixed
UTC-6 since it abolished DST).

The byte-level oddity of the source is preserved: the calendar-marker
"glyph" in the Python source is the mojibake four-character sequence
U+00F0 U+0178 U+201C U+2026 (a UTF-8-double-decoded calendar emoji), and
the dash of the generic title is the three-character sequence
U+00E2 U+20AC U+201C.
-/

deriving instance DecidableEq for Except

namespace Boxing

abbrev Str := List Char

/-- ASCII whitespace, modelling the ASCII fragment of the regex class \s
and of str.strip (the inputs relevant to the claims are ASCII). -/
def isWsC (c : Char) : Bool :=
  c.toNat = 32 || c.toNat = 9 || c.toNat = 10 || c.toNat = 13 || c.toNat = 11 || c.toNat = 12

/-- ASCII digit, the class \d restricted to ASCII. -/
def isDigitC (c : Char) : Bool := 48 ≤ c.toNat && c.toNat ≤ 57

/-- ASCII uppercase letter, the regex class A-Z. -/
def isUpperC (c : Char) : Bool := 65 ≤ c.toNat && c.toNat ≤ 90

/-- ASCII lowercase letter, the regex class a-z. -/
def isLowerC (c : Char) : Bool := 97 ≤ c.toNat && c.toNat ≤ 122

/-- The regex class a-zA-Z0-9. -/
def isAlnumC (c : Char) : Bool := isDigitC c || isUpperC c || isLowerC c

/-- The regex class \w (ASCII fragment): alphanumeric or underscore. -/
def isWordC (c : Char) : Bool := isAlnumC c || c.toNat = 95

/-- Numeric value of an ASCII digit character. -/
def digitVal (c : Char) : Nat := c.toNat - 48

/-- Numeric value of a digit string, most significant first. -/
def digitsVal (s : Str) : Nat := s.foldl (fun a c => a * 10 + digitVal c) 0

/-- str.lower restricted to ASCII (every character the pipeline lowercases
is ASCII: slugs are produced from the class a-zA-Z0-9, and the
keyword table of the timezone lookup is ASCII). -/
def lcChar (c : Char) : Char := if isUpperC c then Char.ofNat (c.toNat + 32) else c

def lcStr (s : Str) : Str := s.map lcChar

/-- Does the first list occur at the head of the second one. -/
def strStarts : Str → Str → Bool
  | [], _ => true
  | _ :: _, [] => false
  | a :: as, b :: bs => a = b && strStarts as bs

/-- Does the needle occur as a contiguous substring of the haystack
(Python in-operator on str). -/
def containsSub (needle : Str) : Str → Bool
  | [] => needle.isEmpty
  | c :: rest => strStarts needle (c :: rest) || containsSub needle rest

/-- Auxiliary state machine of whitespace collapsing: the flag records
whether the previous character was whitespace. -/
def collapseWsAux : Bool → Str → Str
  | _, [] => []
  | prevWs, c :: rest =>
    if isWsC c then
      if prevWs then collapseWsAux true rest else ' ' :: collapseWsAux true rest
    else c :: collapseWsAux false rest

/-- re.sub of one or more whitespace characters by a single space. -/
def collapseWs (s : Str) : Str := collapseWsAux false s

/-- str.strip: drop leading and trailing whitespace. -/
def stripWs (s : Str) : Str := ((s.dropWhile isWsC).reverse.dropWhile isWsC).reverse

/-- normalize_space of the source: collapse whitespace runs to single
spaces, then strip. -/
def normalize_space (s : Str) : Str := stripWs (collapseWs s)

/-- Decimal digit string of a natural number, fuelled for structural
recursion; the fuel is initialised above the number of digits. -/
def natDigitsGo : Nat → Nat → Str
  | 0, _ => []
  | fuel + 1, n =>
    if n < 10 then [Nat.digitChar n]
    else natDigitsGo fuel (n / 10) ++ [Nat.digitChar (n % 10)]

/-- Decimal digit string of a natural number (the str() of a Python int). -/
def natDigits (n : Nat) : Str := natDigitsGo (n + 1) n

/-- Zero-pad a decimal rendering to the given width, the strftime
fields %Y %m %d. -/
def padDigits (k n : Nat) : Str :=
  List.replicate (k - (natDigits n).length) '0' ++ natDigits n

/-! ### Calendrical arithmetic

Day numbers count days since 1970-01-01 (the civil-from-days and
days-from-civil algorithms of Howard Hinnant, as used by every proleptic
Gregorian implementation, including the one backing Python zoneinfo
conversions). -/

def isLeap (y : Int) : Bool := (y.emod 4 = 0 && y.emod 100 ≠ 0) || y.emod 400 = 0

def daysInMonth (y : Int) (m : Nat) : Nat :=
  if m = 2 then (if isLeap y then 29 else 28)
  else if m = 4 || m = 6 || m = 9 || m = 11 then 30
  else 31

/-- Day number of a civil date (days since 1970-01-01). -/
def daysFromCivil (y : Int) (m d : Nat) : Int :=
  let y' : Int := if m ≤ 2 then y - 1 else y
  let era : Int := Int.fdiv y' 400
  let yoe : Nat := (y' - era * 400).toNat
  let mp : Nat := if 2 < m then m - 3 else m + 9
  let doy : Nat := (153 * mp + 2) / 5 + d - 1
  let doe : Nat := yoe * 365 + yoe / 4 - yoe / 100 + doy
  era * 146097 + (doe : Int) - 719468

/-- Civil date (year, month, day) of a day number. -/
def civilFromDays (z0 : Int) : Int × Nat × Nat :=
  let z : Int := z0 + 719468
  let era : Int := Int.fdiv z 146097
  let doe : Nat := (z - era * 146097).toNat
  let yoe : Nat := (doe - doe / 1460 + doe / 36524 - doe / 146096) / 365
  let y1 : Int := (yoe : Int) + era * 400
  let doy : Nat := doe - (365 * yoe + yoe / 4 - yoe / 100)
  let mp : Nat := (5 * doy + 2) / 153
  let d : Nat := doy - (153 * mp + 2) / 5 + 1
  let m : Nat := if mp < 10 then mp + 3 else mp - 9
  (if m ≤ 2 then y1 + 1 else y1, m, d)

/-- Day of week of a day number, 0 = Sunday (1970-01-01 is a Thursday). -/
def weekdaySun0 (days : Int) : Nat := ((days + 4).emod 7).toNat

/-- Day of month of the n-th Sunday of a month. -/
def nthSundayOfMonth (y : Int) (m n : Nat) : Nat :=
  1 + (7 - weekdaySun0 (daysFromCivil y m 1)) % 7 + 7 * (n - 1)

/-- Day of month of the last Sunday of a 31-day month. -/
def lastSundayOfMonth31 (y : Int) (m : Nat) : Nat :=
  31 - weekdaySun0 (daysFromCivil y m 31)

/-! ### Time zones -/

/-- DST regime of a zone: none, United States rules (second Sunday of
March 02:00 local standard time to first Sunday of November 02:00 local
DST time), or European Union rules (last Sunday of March to last Sunday
of October, both at 01:00 UTC). -/
inductive DstRule where
  | fixed : DstRule
  | us : DstRule
  | eu : DstRule
deriving DecidableEq, Repr

/-- A time zone: standard-time and DST UTC offsets in minutes, and the
transition rule. -/
structure Zone where
  std : Int
  dst : Int
  rule : DstRule
deriving DecidableEq, Repr

def zNewYork : Zone := ⟨-300, -240, DstRule.us⟩
def zChicago : Zone := ⟨-360, -300, DstRule.us⟩
def zToronto : Zone := ⟨-300, -240, DstRule.us⟩
def zLondon : Zone := ⟨0, 60, DstRule.eu⟩
def zDublin : Zone := ⟨0, 60, DstRule.eu⟩
def zBerlin : Zone := ⟨60, 120, DstRule.eu⟩
def zCopenhagen : Zone := ⟨60, 120, DstRule.eu⟩
def zMexicoCity : Zone := ⟨-360, -360, DstRule.fixed⟩
def zBrisbane : Zone := ⟨600, 600, DstRule.fixed⟩
def zPuertoRico : Zone := ⟨-240, -240, DstRule.fixed⟩
def zTokyo : Zone := ⟨540, 540, DstRule.fixed⟩
def zDubai : Zone := ⟨240, 240, DstRule.fixed⟩
def zRiyadh : Zone := ⟨180, 180, DstRule.fixed⟩

/-- Lexicographic strictly-less on (month, day, minute-of-day). -/
def lex3Lt (a b : Nat × Nat × Nat) : Bool :=
  a.1 < b.1 || (a.1 = b.1 && (a.2.1 < b.2.1 || (a.2.1 = b.2.1 && a.2.2 < b.2.2)))

def lex3Le (a b : Nat × Nat × Nat) : Bool := !(lex3Lt b a)

/-- Is DST in effect for a wall-clock time of the zone, with the fold=0
semantics of PEP 495: a nonexistent (spring-gap) wall time takes the
pre-transition offset, an ambiguous (fall-back) wall time takes the
earlier instant, i.e. the DST offset. -/
def zoneDstAtWall (z : Zone) (y : Int) (m d mins : Nat) : Bool :=
  match z.rule with
  | DstRule.fixed => false
  | DstRule.us =>
    lex3Le (3, nthSundayOfMonth y 3 2, 180) (m, d, mins) &&
      lex3Lt (m, d, mins) (11, nthSundayOfMonth y 11 1, 120)
  | DstRule.eu =>
    let key : Nat := (120 + z.std).toNat
    lex3Le (3, lastSundayOfMonth31 y 3, key) (m, d, mins) &&
      lex3Lt (m, d, mins) (10, lastSundayOfMonth31 y 10, key)

def zoneOffsetAtWall (z : Zone) (y : Int) (m d mins : Nat) : Int :=
  if zoneDstAtWall z y m d mins then z.dst else z.std

/-- UTC instant (minutes since 1970-01-01T00:00Z) of a wall-clock time of
a zone, as Python datetime.replace(tzinfo=zone).astimezone computes it at
fold=0. -/
def zoneWallToUtc (z : Zone) (y : Int) (m d mins : Nat) : Int :=
  daysFromCivil y m d * 1440 + (mins : Int) - zoneOffsetAtWall z y m d mins

/-- Is DST in effect in America/Chicago at a UTC instant. -/
def ctDstAtUtc (u : Int) : Bool :=
  let y := (civilFromDays (Int.fdiv u 1440)).1
  let spring := daysFromCivil y 3 (nthSundayOfMonth y 3 2) * 1440 + 480
  let fall := daysFromCivil y 11 (nthSundayOfMonth y 11 1) * 1440 + 420
  spring ≤ u && u < fall

/-- Chicago wall-clock minutes (minutes since the civil epoch on the
Chicago wall clock) of a UTC instant: astimezone(CT_ZONE). -/
def utcToCtWall (u : Int) : Int := u + (if ctDstAtUtc u then -300 else -360)

/-- UTC offset of America/Chicago at a Chicago wall-clock instant
(fold=0). -/
def ctWallOffset (w : Int) : Int :=
  let c := civilFromDays (Int.fdiv w 1440)
  zoneOffsetAtWall zChicago c.1 c.2.1 c.2.2 ((w.emod 1440).toNat)

/-- UTC instant of a fold=0 Chicago wall-clock reading:
astimezone(timezone.utc) of an America/Chicago aware datetime whose fold
attribute is 0.  Freshly constructed datetimes and results of timedelta
arithmetic carry fold=0, so this is the conversion the default-time path
and the end-of-event computation use. -/
def ctWallToUtc (w : Int) : Int := w - ctWallOffset w

/-- An aware America/Chicago datetime of the source, carrying both its
wall-clock reading and the UTC instant it denotes.  The instant is what
the PEP 495 fold attribute disambiguates: astimezone produces the wall
reading of an exact instant (setting fold=1 on the later repetition of a
fall-back hour, so the instant is retained), while a freshly constructed
datetime has fold=0 and denotes the fold=0 conversion of its wall
reading. -/
structure CtDateTime where
  wall : Int
  utc : Int
deriving DecidableEq, Repr

/-- Conversion used by the three branches of extract_ringwalk_time: a wall
time of a source zone taken to its UTC instant, then astimezone(CT_ZONE):
the Chicago wall reading of that exact instant, the instant itself kept
(this is where Python would set fold=1 on a repeated fall-back hour). -/
def localToCt (z : Zone) (y m d mins : Nat) : CtDateTime :=
  ⟨utcToCtWall (zoneWallToUtc z (y : Int) m d mins), zoneWallToUtc z (y : Int) m d mins⟩

/-! ### The marker sequence and the card anchor -/

/-- The calendar-marker string literal of the Python source.  The source
file is mojibake-encoded, so the "glyph" is the four-character sequence
U+00F0 U+0178 U+201C U+2026. -/
def calMarker : Str := [Char.ofNat 0xF0, Char.ofNat 0x178, Char.ofNat 0x201C, Char.ofNat 0x2026]

/-- Membership in the negated character class built from the marker
string: the four characters of calMarker. -/
def inCalSet (c : Char) : Bool :=
  c.toNat = 0xF0 || c.toNat = 0x178 || c.toNat = 0x201C || c.toNat = 0x2026

/-- The dash of the generic event title, also mojibake in the source:
U+00E2 U+20AC U+201C. -/
def dashTitle : Str := [Char.ofNat 0xE2, Char.ofNat 0x20AC, Char.ofNat 0x201C]

/-- The twelve-entry month alternation of MONTHS_REGEX, in source order,
with the month number each name denotes. -/
def monthsTable : List (Str × Nat) :=
  [("January".data, 1), ("February".data, 2), ("March".data, 3), ("April".data, 4),
   ("May".data, 5), ("June".data, 6), ("July".data, 7), ("August".data, 8),
   ("September".data, 9), ("October".data, 10), ("November".data, 11), ("December".data, 12)]

/-- Match the month alternation at the head of a string; first alternative
in source order wins.  Returns the name, its number and the remainder. -/
def matchMonth (s : Str) : Option (Str × Nat × Str) :=
  monthsTable.findSome? fun p =>
    if strStarts p.1 s then some (p.1, p.2, s.drop p.1.length) else none

/-- A successful match of the date-anchor core: month name, month number,
the captured day digits, and the suffix right after the colon. -/
structure AnchorHit where
  monthName : Str
  monthNum : Nat
  dayStr : Str
  rest : Str
deriving DecidableEq, Repr

/-- Match the core anchor pattern (month, one or more whitespace, one or
two digits, colon) at the head of a string.  The digit quantifier is
greedy with backtracking: two digits are preferred, and the one-digit
reading applies only when the second character is the colon itself. -/
def matchAnchorCore (s : Str) : Option AnchorHit :=
  match matchMonth s with
  | none => none
  | some (nm, k, r1) =>
    if (r1.takeWhile isWsC).isEmpty then none
    else
      match r1.dropWhile isWsC with
      | [] => none
      | c1 :: rest =>
        if isDigitC c1 then
          match rest with
          | [] => none
          | c2 :: rest2 =>
            if isDigitC c2 then
              match rest2 with
              | ':' :: r => some ⟨nm, k, [c1, c2], r⟩
              | _ => none
            else if c2 = ':' then some ⟨nm, k, [c1], rest2⟩
            else none
        else none

/-- Match the full anchor with its optional marker-and-whitespace group at
the head of a string: the group is tried first, and on failure the core
alone is retried at the same position. -/
def matchAnchorAt (s : Str) : Option AnchorHit :=
  if strStarts calMarker s then
    match matchAnchorCore ((s.drop 4).dropWhile isWsC) with
    | some h => some h
    | none => matchAnchorCore s
  else matchAnchorCore s

/-- The scan of re.finditer for the anchor pattern: non-overlapping
leftmost matches, resuming after each match.  The fuel argument only
serves termination and is initialised to the length of the text. -/
def anchorScan : Nat → Str → Nat → List (Nat × Nat)
  | 0, _, _ => []
  | fuel + 1, s, pos =>
    match s with
    | [] => []
    | _ :: rest =>
      match matchAnchorAt s with
      | some h =>
        let len := s.length - h.rest.length
        (pos, pos + len) :: anchorScan fuel (s.drop len) (pos + len)
      | none => anchorScan fuel rest (pos + 1)

/-- Slice the text between consecutive match starts (last slice runs to
the end), strip each slice, and keep the nonempty ones. -/
def segmentsOf (t : Str) : List (Nat × Nat) → List Str
  | [] => []
  | (s1, _) :: ms =>
    let e := match ms with | (s2, _) :: _ => s2 | [] => t.length
    let seg := stripWs ((t.drop s1).take (e - s1))
    (if seg.isEmpty then [] else [seg]) ++ segmentsOf t ms

/-- split_into_cards of the source. -/
def split_into_cards (text : Str) : List Str :=
  let t := normalize_space text
  segmentsOf t (anchorScan t.length t 0)

/-! ### Per-card field extraction -/

/-- Split the text after the date anchor at the first closing parenthesis:
everything up to and including it is the header, the stripped remainder is
the bouts text; with no closing parenthesis the whole remainder is the
header and the bouts text is empty. -/
def headerFightsSplit (rest : Str) : Str × Str :=
  match rest.findIdx? (fun c => c = ')') with
  | some i => (rest.take (i + 1), stripWs (rest.drop (i + 1)))
  | none => (rest, [])

/-- Index of the last occurrence of a character. -/
def lastIdxOf (c : Char) (s : Str) : Option Nat :=
  match s.reverse.findIdx? (fun x => x = c) with
  | some k => some (s.length - 1 - k)
  | none => none

/-- The location / info match on the header: a lazy prefix, then an
opening parenthesis, then a greedy middle, then a closing parenthesis.
The lazy prefix ends at the first opening parenthesis that still has a
closing parenthesis after it, and the greedy middle extends to the last
closing parenthesis of the header.  Both captured groups are stripped, as
in the source. -/
def locInfoSplit (header : Str) : Option (Str × Str) :=
  match lastIdxOf ')' header with
  | none => none
  | some j =>
    match (header.take j).findIdx? (fun c => c = '(') with
    | none => none
    | some i =>
      some (stripWs (header.take i), stripWs ((header.drop (i + 1)).take (j - i - 1)))

/-- Strip the maximal trailing run of characters that are neither word
characters nor whitespace nor commas (flag glyphs and decorations), then
strip whitespace. -/
def locClean (loc : Str) : Str :=
  stripWs ((loc.reverse.dropWhile (fun c => !(isWordC c || isWsC c || c = ','))).reverse)

/-! ### The headline-bout regular expression

The pattern of the source is, written with CAL for the marker sequence:
a capital letter, a lazy nonempty comma-free run, the literal word
versus, a lazy nonempty run free of the characters of CAL, all followed
by a lookahead requiring a space-separated pair of capitalised words and
another versus, or the CAL sequence, or the end of the text. -/

def versusStr : Str := "versus".data

/-- Does the needle occur at the given position of s. -/
def seqAt (needle s : Str) (p : Nat) : Bool := strStarts needle (s.drop p)

/-- Consume a capitalised word: a capital letter then a nonempty maximal
run of lowercase letters; return the remainder. -/
def nameTok : Str → Option Str
  | [] => none
  | c :: rest =>
    if isUpperC c then
      let ls := rest.takeWhile isLowerC
      if ls.isEmpty then none else some (rest.drop ls.length)
    else none

/-- The first lookahead alternative: a space, a capitalised word, a space,
a capitalised word, a space, and the word versus. -/
def capPairAt : Str → Bool
  | ' ' :: t1 =>
    (match nameTok t1 with
     | some (' ' :: t3) =>
       (match nameTok t3 with
        | some (' ' :: t5) => strStarts versusStr t5
        | _ => false)
     | _ => false)
  | _ => false

/-- The lookahead of the bout pattern at position p: end of text, the
marker sequence, or a capitalised pair followed by versus. -/
def altAt (s : Str) (p : Nat) : Bool :=
  p = s.length || seqAt calMarker s p || capPairAt (s.drop p)

/-- Lazy expansion of the run after versus: the least end position m
strictly beyond j6 such that the run consists of non-marker characters
and the lookahead holds at m.  The walk starts with the suffix at j6. -/
def fightMGo (s : Str) (j6 : Nat) : Str → Nat → Option Nat
  | [], m => if j6 < m && altAt s m then some m else none
  | c :: rest, m =>
    if j6 < m && altAt s m then some m
    else if inCalSet c then none
    else fightMGo s j6 rest (m + 1)

def fightM (s : Str) (j6 : Nat) : Option Nat := fightMGo s j6 (s.drop j6) j6

/-- Lazy expansion of the comma-free run after the leading capital at i:
the least position j of the literal versus reachable through a nonempty
comma-free run, such that the rest of the pattern completes; walks j
forward, stopping at a comma. -/
def fightJGo (s : Str) (i : Nat) : Str → Nat → Option (Nat × Nat)
  | [], j =>
    if i + 2 ≤ j && seqAt versusStr s j then
      match fightM s (j + 6) with
      | some m => some (j, m)
      | none => none
    else none
  | c :: rest, j =>
    match (if i + 2 ≤ j && seqAt versusStr s j then fightM s (j + 6) else none) with
    | some m => some (j, m)
    | none => if c = ',' then none else fightJGo s i rest (j + 1)

def fightJ (s : Str) (i : Nat) : Option (Nat × Nat) :=
  fightJGo s i (s.drop (i + 1)) (i + 1)

/-- Leftmost search of the bout pattern: the first starting position (a
capital letter) from which the whole pattern with its lookahead
completes; the matched group is stripped. -/
def fightIGo (s : Str) : Str → Nat → Option Str
  | [], _ => none
  | c :: rest, i =>
    if isUpperC c then
      match fightJ s i with
      | some (_, m) => some (stripWs ((s.drop i).take (m - i)))
      | none => fightIGo s rest (i + 1)
    else fightIGo s rest (i + 1)

def mainFightSearch (s : Str) : Option Str := fightIGo s s 0

/-- The prefix of a string before the first occurrence of the marker
sequence (str.split on the marker, first piece). -/
def splitBeforeCal : Str → Str
  | [] => []
  | c :: rest => if strStarts calMarker (c :: rest) then [] else c :: splitBeforeCal rest

/-- Headline-bout extraction from the bouts text: the bout regular
expression, or the fallback truncation at the next marker or 200
characters; an empty bouts text yields no bout at all. -/
def mainFightOf (fights : Str) : Option Str :=
  if fights.isEmpty then none
  else
    match mainFightSearch fights with
    | some f => some f
    | none =>
      let m0 := stripWs (splitBeforeCal fights)
      some (if 200 < m0.length then m0.take 200 ++ "...".data else m0)

/-- The fields parse_card_header_and_fights extracts from one card span.
The year is not part of the fields: the source injects the current year
when it builds the date string, which is modelled where the fields are
consumed. -/
structure CardFields where
  monthName : Str
  monthNum : Nat
  dayStr : Str
  loc : Str
  info : Option Str
  mainFight : Option Str
deriving DecidableEq, Repr

/-- parse_card_header_and_fights of the source (the date string it
returns is determined by monthName, dayStr and the injected year; the
None quadruple of the source is the none result here). -/
def parse_card_header_and_fights (card : Str) : Option CardFields :=
  let t := normalize_space card
  match matchAnchorAt t with
  | none => none
  | some h =>
    let rest := stripWs h.rest
    let hf := headerFightsSplit rest
    let li := locInfoSplit hf.1
    let loc0 := match li with | some p => p.1 | none => hf.1
    let info : Option Str := match li with | some p => some p.2 | none => none
    some ⟨h.monthName, h.monthNum, h.dayStr, locClean loc0, info, mainFightOf hf.2⟩

/-! ### The timezone lookup table and the ringwalk-time resolver -/

/-- LOCATION_TIMEZONES of the source, in insertion order (Python dict
iteration order). -/
def locationTimezones : List (Str × Zone) :=
  [("USA".data, zNewYork), ("United States".data, zNewYork),
   ("England".data, zLondon), ("UK".data, zLondon),
   ("Scotland".data, zLondon), ("Wales".data, zLondon),
   ("Ireland".data, zDublin), ("Mexico".data, zMexicoCity),
   ("Australia".data, zBrisbane), ("Puerto Rico".data, zPuertoRico),
   ("Germany".data, zBerlin), ("Denmark".data, zCopenhagen),
   ("Japan".data, zTokyo), ("United Arab Emirates".data, zDubai),
   ("Saudi Arabia".data, zRiyadh), ("Canada".data, zToronto)]

/-- infer_timezone_from_location of the source: first table entry whose
keyword occurs case-insensitively in the location. -/
def infer_timezone_from_location (location : Str) : Option Zone :=
  if location.isEmpty then none
  else (locationTimezones.find? fun p => containsSub (lcStr p.1) (lcStr location)).map (·.2)

/-- A match of the clock-time group of the ringwalk regexes: hour value,
minute value, number of whitespace characters between the minutes and the
meridiem designator, whether the designator is PM, and the position right
after the designator. -/
structure TimeTok where
  h : Nat
  min : Nat
  gap : Nat
  pm : Bool
  stop : Nat
deriving DecidableEq, Repr

/-- Match the case-insensitive meridiem alternation at a position. -/
def ampmAt (s : Str) (p : Nat) : Option (Bool × Nat) :=
  match s.drop p with
  | c1 :: c2 :: _ =>
    if (c1 = 'A' || c1 = 'a') && (c2 = 'M' || c2 = 'm') then some (false, p + 2)
    else if (c1 = 'P' || c1 = 'p') && (c2 = 'M' || c2 = 'm') then some (true, p + 2)
    else none
  | _ => none

/-- Match the clock-time group at position i: one or two digits (two
preferred), a colon, exactly two digits, optional whitespace, and the
meridiem designator. -/
def timeTokAt (s : Str) (i : Nat) : Option TimeTok :=
  match s.drop i with
  | c1 :: c2 :: rest2 =>
    if isDigitC c1 then
      if isDigitC c2 then
        match rest2 with
        | ':' :: m1 :: m2 :: _ =>
          if isDigitC m1 && isDigitC m2 then
            timeTokTail s (10 * digitVal c1 + digitVal c2)
              (10 * digitVal m1 + digitVal m2) (i + 5)
          else none
        | _ => none
      else if c2 = ':' then
        match rest2 with
        | m1 :: m2 :: _ =>
          if isDigitC m1 && isDigitC m2 then
            timeTokTail s (digitVal c1) (10 * digitVal m1 + digitVal m2) (i + 4)
          else none
        | _ => none
      else none
    else none
  | _ => none
where
  timeTokTail (s : Str) (hv mv p : Nat) : Option TimeTok :=
    let sp := ((s.drop p).takeWhile isWsC).length
    match ampmAt s (p + sp) with
    | some (pm, stop) => some ⟨hv, mv, sp, pm, stop⟩
    | none => none

/-- The window of the ringwalk regexes: some gap of at most forty
non-newline characters after the clock time, followed by the target token
case-insensitively. -/
def targetInWindow (s : Str) (p : Nat) (target : Str) : Bool :=
  (List.range 41).any fun g =>
    ((s.drop p).take g).all (fun c => c ≠ '\n') && strStarts (lcStr target) (lcStr (s.drop (p + g)))

/-- Leftmost search for a clock time whose window reaches the target
token (re.search of the ringwalk patterns: the leftmost position at which
the whole pattern, lookahead-free and left to right, completes). -/
def searchTimeTargetGo (s : Str) (target : Str) : Str → Nat → Option TimeTok
  | [], _ => none
  | _ :: rest, i =>
    match timeTokAt s i with
    | some tt =>
      if targetInWindow s tt.stop target then some tt
      else searchTimeTargetGo s target rest (i + 1)
    | none => searchTimeTargetGo s target rest (i + 1)

def searchTimeTarget (s target : Str) : Option TimeTok :=
  searchTimeTargetGo s target s 0

/-- Validity of the strptime call of a ringwalk branch on the string
built from the date and the captured clock time with format
month-name day, year, twelve-hour clock with meridiem: the year must be
a datetime year of at most four digits, the day must exist in the month,
the hour must be a twelve-hour clock hour, the minutes at most 59, and at
least one whitespace character must separate the minutes from the
designator. -/
def strptimeOk (y m d : Nat) (tt : TimeTok) : Bool :=
  1 ≤ y && y ≤ 9999 && 1 ≤ d && d ≤ daysInMonth (y : Int) m &&
    1 ≤ tt.h && tt.h ≤ 12 && tt.min ≤ 59 && 1 ≤ tt.gap

/-- Validity of the strptime call of the default-time path on the date
string alone. -/
def dateOk (y m d : Nat) : Bool :=
  1 ≤ y && y ≤ 9999 && 1 ≤ d && d ≤ daysInMonth (y : Int) m

/-- Twenty-four-hour minutes-of-day of a captured clock time. -/
def minutesOfTok (tt : TimeTok) : Nat :=
  60 * (if tt.pm then tt.h % 12 + 12 else tt.h % 12) + tt.min

/-- extract_ringwalk_time of the source.  The result is an exception
(Except.error, a ValueError escaping from strptime), or no resolved time,
or the resolved start as an aware Chicago datetime (wall reading plus
exact instant).  The three branches run in the fixed order ET, UK, Local
Time; a branch that matches but fails strptime raises rather than
falling through; the Local Time branch checks the location timezone
before parsing and yields no time when the location resolves to no
zone. -/
def extract_ringwalk_time (info : Str) (y m d : Nat) (location : Str) :
    Except Unit (Option CtDateTime) :=
  if info.isEmpty then Except.ok none
  else
    match searchTimeTarget info ("ET".data) with
    | some tt =>
      if strptimeOk y m d tt then
        Except.ok (some (localToCt zNewYork y m d (minutesOfTok tt)))
      else Except.error ()
    | none =>
    match searchTimeTarget info ("UK".data) with
    | some tt =>
      if strptimeOk y m d tt then
        Except.ok (some (localToCt zLondon y m d (minutesOfTok tt)))
      else Except.error ()
    | none =>
    match searchTimeTarget info ("Local Time".data) with
    | some tt =>
      match infer_timezone_from_location location with
      | some z =>
        if strptimeOk y m d tt then
          Except.ok (some (localToCt z y m d (minutesOfTok tt)))
        else Except.error ()
      | none => Except.ok none
    | none => Except.ok none

/-! ### Event assembly -/

/-- The event record the source populates (the fields it sets on the ics
Event object).  Instants are minutes since 1970-01-01T00:00Z. -/
structure Event where
  name : Str
  startUtc : Int
  endUtc : Int
  description : Str
  uid : Str
deriving DecidableEq, Repr

/-- Python truthiness of an optional string: an empty string is falsy. -/
def truthyS : Option Str → Option Str
  | some [] => none
  | some s => some s
  | none => none

/-- The date string of the source: month name, the captured day digits, a
comma, and the injected current year. -/
def dateStrOf (f : CardFields) (y : Nat) : Str :=
  f.monthName ++ ' ' :: f.dayStr ++ ',' :: ' ' :: natDigits y

/-- The newline-joined description of the source. -/
def descriptionOf (f : CardFields) (y : Nat) : Str :=
  "Date: ".data ++ dateStrOf f y ++
    '\n' :: ("Location: ".data ++ f.loc) ++
    (match truthyS f.info with
     | some i => '\n' :: ("Info: ".data ++ i)
     | none => []) ++
    '\n' :: "Source: Boxing247.com".data

/-- The run-collapsing substitution of the slug: every maximal run of
characters outside a-zA-Z0-9 becomes one hyphen. -/
def slugReplAux : Bool → Str → Str
  | _, [] => []
  | prevRun, c :: rest =>
    if isAlnumC c then c :: slugReplAux false rest
    else if prevRun then slugReplAux true rest
    else '-' :: slugReplAux true rest

/-- str.strip with hyphens. -/
def stripDashes (s : Str) : Str :=
  ((s.dropWhile (fun c => c = '-')).reverse.dropWhile (fun c => c = '-')).reverse

/-- The slug of the source: replace non-alphanumeric runs by hyphens,
strip hyphens, lowercase. -/
def slugify (s : Str) : Str := lcStr (stripDashes (slugReplAux false s))

/-- The slug base: the location, with the headline bout appended after a
space when one is present and nonempty. -/
def slugBaseOf (f : CardFields) : Str :=
  match truthyS f.mainFight with
  | some mf => f.loc ++ ' ' :: mf
  | none => f.loc

/-- The uid of the source: strftime year-month-day, a hyphen, the slug,
and the fixed namespace. -/
def uidOf (f : CardFields) (y : Nat) : Str :=
  padDigits 4 y ++ padDigits 2 f.monthNum ++ padDigits 2 (digitsVal f.dayStr) ++
    '-' :: (slugify (slugBaseOf f) ++ '@' :: "boxing247-calendar".data)

/-- The event name: the headline bout when present and nonempty, else the
generic title with the location. -/
def titleOf (f : CardFields) : Str :=
  match truthyS f.mainFight with
  | some mf => mf
  | none => "Boxing card ".data ++ dashTitle ++ ' ' :: f.loc

/-- The body of the per-card try block of build_events_from_text: parse
the card, skip it on a falsy date or location, resolve the ringwalk time
(an escaping exception drops the card), fall back to the fold=0 datetime
21:00 Chicago wall time on the date of the card, add three hours with
timedelta (wall-clock addition whose result carries fold=0), convert
both ends to UTC and assemble the event.  The start converts to its
retained exact instant; the end converts through the fold=0 reading of
its wall time.  A none result is a card that produced no event, whether
by an explicit skip or by a caught exception. -/
def processCard (y : Nat) (card : Str) : Option Event :=
  match parse_card_header_and_fights card with
  | none => none
  | some f =>
    if f.loc.isEmpty then none
    else
      let d := digitsVal f.dayStr
      match extract_ringwalk_time (f.info.getD []) y f.monthNum d f.loc with
      | Except.error _ => none
      | Except.ok res =>
        let start? : Option CtDateTime :=
          match res with
          | some s => some s
          | none =>
            if dateOk y f.monthNum d then
              some ⟨daysFromCivil (y : Int) f.monthNum d * 1440 + 21 * 60,
                    ctWallToUtc (daysFromCivil (y : Int) f.monthNum d * 1440 + 21 * 60)⟩
            else none
        match start? with
        | none => none
        | some start =>
          some { name := titleOf f,
                 startUtc := start.utc,
                 endUtc := ctWallToUtc (start.wall + 180),
                 description := descriptionOf f y,
                 uid := uidOf f y }

/-- The loop of build_events_from_text over the card spans, given the
current year: events accumulate in order, and a card that yields none is
skipped. -/
def build_events_from_year (y : Nat) (text : Str) : List Event :=
  (split_into_cards text).foldl
    (fun acc card =>
      match processCard y card with
      | some ev => acc ++ [ev]
      | none => acc) []

/-- The current Chicago date, the only ambient input of the pipeline
(datetime.now against the Chicago zone; the source reads only its year
field). -/
structure Today where
  year : Nat
  month : Nat
  day : Nat
deriving DecidableEq, Repr

/-- build_events_from_text of the source, with the ambient current date
made an explicit argument. -/
def build_events_from_text (text : Str) (now : Today) : List Event :=
  build_events_from_year now.year text

/-- Decision procedure for the uid shape of the spec: eight digits, a
hyphen, a nonempty run over lowercase-alphanumeric-hyphen, an at sign,
and a nonempty newline-free remainder. -/
def isSlugChar (c : Char) : Bool := isLowerC c || isDigitC c || c = '-'

def matchesUidPattern (s : Str) : Bool :=
  (s.take 8).length = 8 && (s.take 8).all isDigitC &&
    match s.drop 8 with
    | '-' :: r2 =>
      let run := r2.takeWhile isSlugChar
      let r3 := r2.drop run.length
      1 ≤ run.length &&
        match r3 with
        | '@' :: tail => !tail.isEmpty && tail.all (fun c => c ≠ '\n')
        | _ => false
    | _ => false

/-! ### Concrete sample inputs used to instantiate the theorems -/

/-- A minimal well-formed card text with no info and no bouts. -/
def sampleCardText : Str := "February 5: Montreal, Canada".data

/-- The fields parse_card_header_and_fights extracts from the sample. -/
def sampleFields : CardFields :=
  ⟨"February".data, 2, ['5'], "Montreal, Canada".data, none, none⟩

/-- The event the pipeline builds from the sample card in 2025: the
default 21:00 Chicago start on February 5, which is 03:00 UTC the next
day (28980180 minutes since the epoch), a three-hour span, and the
slugged uid. -/
def sampleEvent : Event :=
  ⟨"Boxing card ".data ++ dashTitle ++ ' ' :: "Montreal, Canada".data,
   28980180, 28980360,
   "Date: February 5, 2025".data ++ '\n' :: "Location: Montreal, Canada".data ++
     '\n' :: "Source: Boxing247.com".data,
   "20250205-montreal-canada@boxing247-calendar".data⟩

/-! ## Supporting lemmas -/

/-- The accumulator form of the event loop is the filterMap of the card
list: the per-card try/except keeps exactly the cards whose processing
succeeds, in order. -/
theorem build_fold_aux (y : Nat) (l : List Str) (acc : List Event) :
    (l.foldl (fun a card =>
      match processCard y card with
      | some ev => a ++ [ev]
      | none => a) acc) = acc ++ l.filterMap (processCard y) := by
  induction l generalizing acc with
  | nil => simp
  | cons c l ih =>
    simp only [List.foldl_cons, List.filterMap_cons]
    cases h : processCard y c <;> simp [h, ih]

theorem build_eq_filterMap (y : Nat) (text : Str) :
    build_events_from_year y text = (split_into_cards text).filterMap (processCard y) := by
  unfold build_events_from_year
  simpa using build_fold_aux y (split_into_cards text) []

/-- Every event of the output comes from one card of the segmentation. -/
theorem mem_build {text : Str} {now : Today} {ev : Event}
    (h : ev ∈ build_events_from_text text now) :
    ∃ card ∈ split_into_cards text, processCard now.year card = some ev := by
  unfold build_events_from_text at h
  rw [build_eq_filterMap] at h
  simpa using List.mem_filterMap.mp h

/-- Shape of every successfully processed card: the event is assembled in
one piece from the parsed fields and an aware Chicago start datetime; the
start UTC is the exact start instant, and the end UTC is the fold=0
conversion of the start wall reading plus 180 wall-clock minutes. -/
theorem processCard_some_shape {y : Nat} {card : Str} {ev : Event}
    (h : processCard y card = some ev) :
    ∃ f start, parse_card_header_and_fights card = some f ∧
      ev = ⟨titleOf f, CtDateTime.utc start, ctWallToUtc (CtDateTime.wall start + 180),
            descriptionOf f y, uidOf f y⟩ := by
  unfold processCard at h
  split at h
  · exact absurd h (by simp)
  · rename_i f hp
    split at h
    · exact absurd h (by simp)
    · dsimp only at h
      split at h
      · exact absurd h (by simp)
      · split at h
        · exact absurd h (by simp)
        · rename_i startW _
          exact ⟨f, startW, hp, (Option.some.injEq _ _ ▸ h).symm⟩

/-- Codepoint of Char.ofNat below the surrogate range. -/
theorem char_toNat_ofNat {n : Nat} (h : n < 55296) : (Char.ofNat n).toNat = n := by
  rw [Char.ofNat, dif_pos (Or.inl h)]
  rfl

theorem isDigitC_digitChar {n : Nat} (h : n < 10) : isDigitC (Nat.digitChar n) = true := by
  interval_cases n <;> decide

theorem natDigitsGo_all (fuel n : Nat) : (natDigitsGo fuel n).all isDigitC = true := by
  induction fuel generalizing n with
  | zero => rfl
  | succ fuel ih =>
    unfold natDigitsGo
    split
    · rename_i hn
      simp [isDigitC_digitChar hn]
    · simp [ih, isDigitC_digitChar (Nat.mod_lt _ (by omega))]

theorem natDigits_all (n : Nat) : (natDigits n).all isDigitC = true := natDigitsGo_all _ n

theorem natDigitsGo_length {fuel n k : Nat} (hk : 0 < k) (h : n < 10 ^ k) :
    (natDigitsGo fuel n).length ≤ k := by
  induction fuel generalizing n k with
  | zero => simp [natDigitsGo]
  | succ fuel ih =>
    unfold natDigitsGo
    split
    · simpa using hk
    · rename_i hn
      have hk2 : 2 ≤ k := by
        rcases Nat.lt_or_ge k 2 with hlt | hge
        · exfalso
          have hk1 : k = 1 := by omega
          subst hk1
          simp at h
          omega
        · exact hge
      have hdiv : n / 10 < 10 ^ (k - 1) := by
        apply Nat.div_lt_of_lt_mul
        have : 10 ^ (k - 1) * 10 = 10 ^ k := by
          rw [← pow_succ]
          congr 1
          omega
        omega
      have := ih (n := n / 10) (k := k - 1) (by omega) hdiv
      simp only [List.length_append, List.length_cons, List.length_nil]
      omega

theorem natDigits_length {n k : Nat} (hk : 0 < k) (h : n < 10 ^ k) :
    (natDigits n).length ≤ k := natDigitsGo_length hk h

theorem padDigits_length {k n : Nat} (h : (natDigits n).length ≤ k) :
    (padDigits k n).length = k := by
  simp only [padDigits, List.length_append, List.length_replicate]
  omega

theorem padDigits_all (k n : Nat) : (padDigits k n).all isDigitC = true := by
  simp only [padDigits, List.all_append, Bool.and_eq_true]
  refine ⟨?_, natDigits_all n⟩
  simp only [List.all_eq_true]
  intro c hc
  rcases (List.mem_replicate.mp hc).2 with rfl
  decide

/-- Characters of the slug substitution are alphanumeric or hyphens. -/
theorem slugReplAux_chars (s : Str) : ∀ (b : Bool), ∀ c ∈ slugReplAux b s,
    isAlnumC c = true ∨ c = '-' := by
  induction s with
  | nil => intro b c hc; simp [slugReplAux] at hc
  | cons a s ih =>
    intro b c hc
    unfold slugReplAux at hc
    by_cases ha : isAlnumC a = true
    · rw [if_pos ha] at hc
      rcases List.mem_cons.mp hc with rfl | hc
      · exact Or.inl ha
      · exact ih false c hc
    · rw [if_neg ha] at hc
      by_cases hb : b = true
      · rw [if_pos hb] at hc
        exact ih true c hc
      · rw [if_neg hb] at hc
        rcases List.mem_cons.mp hc with rfl | hc
        · exact Or.inr rfl
        · exact ih true c hc

theorem mem_stripDashes {s : Str} {c : Char} (h : c ∈ stripDashes s) : c ∈ s := by
  unfold stripDashes at h
  rw [List.mem_reverse] at h
  have h2 := (List.dropWhile_sublist _).mem h
  rw [List.mem_reverse] at h2
  exact (List.dropWhile_sublist _).mem h2

theorem isSlugChar_lcChar {c : Char} (h : isAlnumC c = true ∨ c = '-') :
    isSlugChar (lcChar c) = true := by
  rcases h with h | rfl
  · by_cases hu : isUpperC c = true
    · have hb : 65 ≤ c.toNat ∧ c.toNat ≤ 90 := by
        have h2 := hu
        simp only [isUpperC, Bool.and_eq_true, decide_eq_true_eq] at h2
        exact h2
      have hv : c.toNat + 32 < 55296 := by omega
      have hlc : lcChar c = Char.ofNat (c.toNat + 32) := by simp [lcChar, hu]
      rw [hlc]
      simp only [isSlugChar, isLowerC, isDigitC, char_toNat_ofNat hv, Bool.or_eq_true,
        Bool.and_eq_true, decide_eq_true_eq]
      omega
    · have hu' : isUpperC c = false := by simpa using hu
      have hlc : lcChar c = c := by simp [lcChar, hu']
      rw [hlc]
      simp only [isAlnumC, Bool.or_eq_true] at h
      rcases h with (hd | hup) | hl
      · simp [isSlugChar, hd]
      · exact absurd hup (by simp [hu'])
      · simp [isSlugChar, hl]
  · decide

theorem slugify_chars (s : Str) : ∀ c ∈ slugify s, isSlugChar c = true := by
  intro c hc
  unfold slugify lcStr at hc
  obtain ⟨c0, hc0, rfl⟩ := List.mem_map.mp hc
  exact isSlugChar_lcChar (slugReplAux_chars s false c0 (mem_stripDashes hc0))

theorem slugify_all (s : Str) : (slugify s).all isSlugChar = true := by
  rw [List.all_eq_true]
  exact fun c hc => slugify_chars s c hc

theorem takeWhile_append_eq {α} {p : α → Bool} (l1 : List α) (c : α) (l2 : List α)
    (h : l1.all p = true) (hc : p c = false) :
    (l1 ++ c :: l2).takeWhile p = l1 := by
  rw [List.takeWhile_append_of_pos (by simpa [List.all_eq_true] using h)]
  simp [List.takeWhile_cons, hc]

/-- A successful month match yields a month number of the fixed table. -/
theorem matchMonth_num {s nm : Str} {k : Nat} {r : Str}
    (h : matchMonth s = some (nm, k, r)) : 1 ≤ k ∧ k ≤ 12 := by
  obtain ⟨a, ha, hfa⟩ := List.exists_of_findSome?_eq_some h
  split at hfa
  · obtain ⟨h1, h2, h3⟩ := Prod.mk.injEq _ _ _ _ ▸ Option.some.injEq _ _ ▸ hfa
    fin_cases ha <;> simp_all
  · exact absurd hfa (by simp)

/-- A successful anchor-core match captures a month number of the table
and one or two day digits. -/
theorem matchAnchorCore_shape {s : Str} {h : AnchorHit}
    (hm : matchAnchorCore s = some h) :
    (1 ≤ h.monthNum ∧ h.monthNum ≤ 12) ∧ h.dayStr.all isDigitC = true ∧
      (h.dayStr.length = 1 ∨ h.dayStr.length = 2) := by
  unfold matchAnchorCore at hm
  split at hm
  · exact absurd hm (by simp)
  · rename_i nm k r1 hmm
    split at hm
    · exact absurd hm (by simp)
    · split at hm
      · exact absurd hm (by simp)
      · rename_i c1 rest
        split at hm
        · split at hm
          · exact absurd hm (by simp)
          · rename_i c2 rest2
            split at hm
            · split at hm
              · rename_i hd1 hd2 r
                cases hm
                refine ⟨matchMonth_num hmm, ?_, Or.inr rfl⟩
                simp_all
              · exact absurd hm (by simp)
            · split at hm
              · cases hm
                refine ⟨matchMonth_num hmm, ?_, Or.inl rfl⟩
                simp_all
              · exact absurd hm (by simp)
        · exact absurd hm (by simp)

theorem matchAnchorAt_shape {s : Str} {h : AnchorHit}
    (hm : matchAnchorAt s = some h) :
    (1 ≤ h.monthNum ∧ h.monthNum ≤ 12) ∧ h.dayStr.all isDigitC = true ∧
      (h.dayStr.length = 1 ∨ h.dayStr.length = 2) := by
  unfold matchAnchorAt at hm
  split at hm
  · split at hm
    · rename_i h2
      cases hm
      exact matchAnchorCore_shape h2
    · exact matchAnchorCore_shape hm
  · exact matchAnchorCore_shape hm

/-- A successfully parsed card has a table month number and one or two
day digits. -/
theorem parse_shape {card : Str} {f : CardFields}
    (h : parse_card_header_and_fights card = some f) :
    (1 ≤ f.monthNum ∧ f.monthNum ≤ 12) ∧ f.dayStr.all isDigitC = true ∧
      (f.dayStr.length = 1 ∨ f.dayStr.length = 2) := by
  unfold parse_card_header_and_fights at h
  dsimp only at h
  split at h
  · exact absurd h (by simp)
  · rename_i hit hm
    cases h
    exact matchAnchorAt_shape hm

theorem digitVal_le {c : Char} (h : isDigitC c = true) : digitVal c ≤ 9 := by
  simp only [isDigitC, Bool.and_eq_true, decide_eq_true_eq] at h
  simp only [digitVal]
  omega

theorem digitsVal_le_99 {s : Str} (hd : s.all isDigitC = true)
    (hl : s.length = 1 ∨ s.length = 2) : digitsVal s ≤ 99 := by
  match s, hl with
  | [a], _ =>
    simp only [List.all_cons, List.all_nil, Bool.and_true] at hd
    have := digitVal_le hd
    simp only [digitsVal, List.foldl_cons, List.foldl_nil]
    omega
  | [a, b], _ =>
    simp only [List.all_cons, List.all_nil, Bool.and_true, Bool.and_eq_true] at hd
    have h1 := digitVal_le hd.1
    have h2 := digitVal_le hd.2
    simp only [digitsVal, List.foldl_cons, List.foldl_nil]
    omega

/-- Characters of the fixed uid namespace. -/
theorem uid_ns_chars : ∀ c ∈ ("boxing247-calendar".data : Str),
    (isLowerC c || isDigitC c || c = '-' || c = '@' || c = '.') = true := by decide

/-- Shape of every generated uid: an eight-digit date part, a hyphen, the
slug and the fixed namespace; the slug holds only lowercase
alphanumerics and hyphens; a nonempty slug makes the uid match the
spec pattern; and every uid character is lowercase alphanumeric, hyphen,
at sign or dot. -/
theorem uidOf_shape {f : CardFields} {y : Nat}
    (hm : 1 ≤ f.monthNum ∧ f.monthNum ≤ 12)
    (hd : f.dayStr.all isDigitC = true) (hdl : f.dayStr.length = 1 ∨ f.dayStr.length = 2)
    (hy2 : y ≤ 9999) :
    ∃ datePart slug,
      uidOf f y = datePart ++ '-' :: (slug ++ '@' :: "boxing247-calendar".data) ∧
      datePart.length = 8 ∧ datePart.all isDigitC = true ∧ slug.all isSlugChar = true ∧
      (slug ≠ [] → matchesUidPattern (uidOf f y) = true) ∧
      (∀ c ∈ uidOf f y, (isLowerC c || isDigitC c || c = '-' || c = '@' || c = '.') = true) := by
  refine ⟨padDigits 4 y ++ padDigits 2 f.monthNum ++ padDigits 2 (digitsVal f.dayStr),
    slugify (slugBaseOf f), ?_, ?_, ?_, ?_, ?_, ?_⟩
  · rfl
  · have l4 : (padDigits 4 y).length = 4 :=
      padDigits_length (natDigits_length (by omega) (by omega))
    have l2m : (padDigits 2 f.monthNum).length = 2 :=
      padDigits_length (natDigits_length (by omega) (by omega))
    have l2d : (padDigits 2 (digitsVal f.dayStr)).length = 2 :=
      padDigits_length (natDigits_length (by omega) (by have := digitsVal_le_99 hd hdl; omega))
    simp [l4, l2m, l2d]
  · simp [padDigits_all]
  · exact slugify_all _
  · intro hne
    have l4 : (padDigits 4 y).length = 4 :=
      padDigits_length (natDigits_length (by omega) (by omega))
    have l2m : (padDigits 2 f.monthNum).length = 2 :=
      padDigits_length (natDigits_length (by omega) (by omega))
    have l2d : (padDigits 2 (digitsVal f.dayStr)).length = 2 :=
      padDigits_length (natDigits_length (by omega) (by have := digitsVal_le_99 hd hdl; omega))
    have huid : uidOf f y = (padDigits 4 y ++ padDigits 2 f.monthNum ++
        padDigits 2 (digitsVal f.dayStr)) ++
        '-' :: (slugify (slugBaseOf f) ++ '@' :: "boxing247-calendar".data) := rfl
    have hlen : (padDigits 4 y ++ padDigits 2 f.monthNum ++
        padDigits 2 (digitsVal f.dayStr)).length = 8 := by
      simp [l4, l2m, l2d]
    rw [matchesUidPattern, huid]
    rw [List.take_left' hlen, List.drop_left' hlen]
    have hrun : (slugify (slugBaseOf f) ++ '@' :: "boxing247-calendar".data).takeWhile
        isSlugChar = slugify (slugBaseOf f) :=
      takeWhile_append_eq _ _ _ (slugify_all _) (by decide)
    simp only [hrun, hlen, List.all_append, List.drop_left]
    have hrl : 1 ≤ (slugify (slugBaseOf f)).length := by
      cases hsl : slugify (slugBaseOf f) with
      | nil => exact absurd hsl hne
      | cons a l => simp
    simp [padDigits_all, hrl]
  · intro c hc
    rw [uidOf] at hc
    have digitCase : ∀ k n : Nat, c ∈ padDigits k n →
        (isLowerC c || isDigitC c || c = '-' || c = '@' || c = '.') = true := by
      intro k n hk
      have := List.all_eq_true.mp (padDigits_all k n) c hk
      simp [this]
    rcases List.mem_append.mp hc with h12 | hrest
    · rcases List.mem_append.mp h12 with h1 | h2d
      · rcases List.mem_append.mp h1 with h4 | h2m
        · exact digitCase _ _ h4
        · exact digitCase _ _ h2m
      · exact digitCase _ _ h2d
    · rcases List.mem_cons.mp hrest with rfl | h5
      · decide
      · rcases List.mem_append.mp h5 with hs | h6
        · have := slugify_chars _ c hs
          simp only [isSlugChar, Bool.or_eq_true] at this
          simp only [Bool.or_eq_true]
          tauto
        · rcases List.mem_cons.mp h6 with rfl | hns
          · decide
          · exact uid_ns_chars c hns

/-! ## Claims -/

/-- Claim C1, counterexample: the pipeline is not independent of the wall
clock.  The same input text yields different event sequences when the
ambient clock reads December 31, 2025 and January 1, 2026 (the injected
current year changes the date, the start instant and the uid). -/
theorem c1_wall_clock_dependence_counterexample :
    build_events_from_text sampleCardText ⟨2025, 12, 31⟩ ≠
      build_events_from_text sampleCardText ⟨2026, 1, 1⟩ := by decide

/-- Claim C1, amended: the pipeline is a pure function of the input text
and of the year of the ambient current Chicago date, which is its only
wall-clock dependence: two runs whose current dates share a year produce
identical event sequences. -/
theorem c1_deterministic_given_year (text : Str) (n1 n2 : Today)
    (h : n1.year = n2.year) :
    build_events_from_text text n1 = build_events_from_text text n2 := by
  unfold build_events_from_text
  rw [h]

theorem c1_deterministic_given_year_witness :
    build_events_from_text sampleCardText ⟨2025, 1, 1⟩ =
      build_events_from_text sampleCardText ⟨2025, 12, 31⟩ :=
  c1_deterministic_given_year sampleCardText ⟨2025, 1, 1⟩ ⟨2025, 12, 31⟩ rfl

/-- Claim C2, counterexample: an emitted event whose UTC duration is two
hours, not three.  A card on March 9, 2025 announcing 7:00 AM UK time
starts at 01:00 Chicago wall time; adding three wall-clock hours crosses
the spring-forward gap, so endUtc minus startUtc is 120 minutes. -/
theorem c2_utc_duration_counterexample :
    (build_events_from_text
        ("March 9: Manchester, England (at 7:00 AM UK) A versus B".data)
        ⟨2025, 1, 15⟩).map (fun e => e.endUtc - e.startUtc) = [120] := by decide

/-- Claim C2, amended: every emitted event ends three wall-clock hours
after its start on the America/Chicago clock: the end instant is the
fold=0 conversion of the start wall reading plus 180 minutes (timedelta
results carry fold=0), while the start instant is the exact instant the
resolver produced, retained through the fold attribute.  The UTC
duration therefore equals 180 plus the offset attached to the start
(start wall minus start instant) minus the fold=0 Chicago offset at the
end wall reading; in particular it is exactly three hours whenever those
two offsets coincide, and otherwise differs: two hours when the span
crosses the spring-forward gap, four hours when a fall-back transition
lies between the start instant and the fold=0 reading of the end wall
time (a start sitting on the repeated fall-back hour keeps the
three-hour duration, its fold=1 offset agreeing with the end). -/
theorem c2_wall_clock_three_hours (text : Str) (now : Today) (ev : Event)
    (h : ev ∈ build_events_from_text text now) :
    ∃ s : CtDateTime, ev.startUtc = s.utc ∧ ev.endUtc = ctWallToUtc (s.wall + 180) ∧
      ev.endUtc - ev.startUtc = 180 + (s.wall - s.utc) - ctWallOffset (s.wall + 180) ∧
      (s.wall - s.utc = ctWallOffset (s.wall + 180) → ev.endUtc - ev.startUtc = 180) := by
  obtain ⟨card, hcard, hpc⟩ := mem_build h
  obtain ⟨f, start, hp, rfl⟩ := processCard_some_shape hpc
  refine ⟨start, rfl, rfl, ?_, fun hoff => ?_⟩
  · simp only [ctWallToUtc]
    omega
  · simp only [ctWallToUtc]
    omega

theorem c2_wall_clock_three_hours_witness :
    ∃ s : CtDateTime, sampleEvent.startUtc = s.utc ∧
      sampleEvent.endUtc = ctWallToUtc (s.wall + 180) ∧
      sampleEvent.endUtc - sampleEvent.startUtc =
        180 + (s.wall - s.utc) - ctWallOffset (s.wall + 180) ∧
      (s.wall - s.utc = ctWallOffset (s.wall + 180) →
        sampleEvent.endUtc - sampleEvent.startUtc = 180) :=
  c2_wall_clock_three_hours sampleCardText ⟨2025, 6, 1⟩ sampleEvent (by decide)

/-- Claim C3, counterexample: with info text at 7:00 PM Local and
location Guadalajara, Mexico, extract_ringwalk_time returns no start at
all: the third branch requires the token Local Time, and the bare token
Local does not fire it. -/
theorem c3_local_token_counterexample :
    extract_ringwalk_time ("at 7:00 PM Local".data) 2026 2 6
      ("Guadalajara, Mexico".data) = Except.ok none := by decide

/-- Claim C3, amended: the third branch fires on a clock time followed
within the window by the token Local Time (not the bare token Local).
For info text at 7:00 PM Local Time and location Guadalajara, Mexico the
location resolves to the America/Mexico_City zone and the result is 7:00
PM of that zone on the date of the card, converted to the canonical
zone: the aware Chicago datetime reading 19:00 wall time on February 6,
2026 and denoting the instant 01:00 UTC of February 7 (wall plus 360
minutes, Chicago being on CST). -/
theorem c3_local_time_token :
    infer_timezone_from_location ("Guadalajara, Mexico".data) = some zMexicoCity ∧
    extract_ringwalk_time ("at 7:00 PM Local Time".data) 2026 2 6
        ("Guadalajara, Mexico".data) =
      Except.ok (some (localToCt zMexicoCity 2026 2 6 (19 * 60))) ∧
    localToCt zMexicoCity 2026 2 6 (19 * 60) =
      ⟨daysFromCivil 2026 2 6 * 1440 + 19 * 60,
       daysFromCivil 2026 2 6 * 1440 + 19 * 60 + 360⟩ := by
  refine ⟨by decide, by decide, by decide⟩

/-- Claim C4, counterexample: for the bouts text Albert Ramirez versus
Lerrone Richards, 12 rounds the extracted headline bout is not the bare
pair of names. -/
theorem c4_headline_bout_counterexample :
    (parse_card_header_and_fights
        ("February 5: Montreal, Quebec, Canada (Live on TBA) Albert Ramirez versus Lerrone Richards, 12 rounds".data)).map
      CardFields.mainFight ≠
      some (some ("Albert Ramirez versus Lerrone Richards".data)) := by decide

/-- Claim C4, amended: the bout match extends past the fighter names up
to the next marker sequence, the next capitalised-pair-versus, or the end
of the text, so the trailing round count is included: the extracted
headline bout equals Albert Ramirez versus Lerrone Richards, 12
rounds. -/
theorem c4_headline_bout_full_text :
    (parse_card_header_and_fights
        ("February 5: Montreal, Quebec, Canada (Live on TBA) Albert Ramirez versus Lerrone Richards, 12 rounds".data)).map
      CardFields.mainFight =
      some (some ("Albert Ramirez versus Lerrone Richards, 12 rounds".data)) := by decide

/-- Claim C5, counterexample: a card whose location is the string of two
commas is accepted (the location is truthy), but its slug is empty, so
the uid is 20250205-@boxing247-calendar, which does not match the
pattern of eight digits, hyphen, nonempty slug, at sign, namespace. -/
theorem c5_uid_pattern_counterexample :
    (build_events_from_text ("February 5: ,,".data) ⟨2025, 6, 1⟩).map (fun e => e.uid) =
      ["20250205-@boxing247-calendar".data] ∧
    matchesUidPattern ("20250205-@boxing247-calendar".data) = false := by decide

/-- Claim C5, amended: every uid of an emitted event (for a current year
of four digits) consists only of characters from the class of lowercase
letters, digits, hyphen, at sign and dot, and factors as an eight-digit
date part, a hyphen, a slug over lowercase alphanumerics and hyphens,
and the fixed at-namespace; the uid matches the spec pattern whenever
the slug is nonempty (it fails only when location and bout text hold no
ASCII alphanumeric at all, as in the counterexample).  The uid is a pure
function of the parsed fields and the year, so equal date, location and
bout inputs always give the same uid. -/
theorem c5_uid_shape (text : Str) (now : Today) (ev : Event)
    (hy1 : 1000 ≤ now.year) (hy2 : now.year ≤ 9999)
    (h : ev ∈ build_events_from_text text now) :
    (∀ c ∈ ev.uid, (isLowerC c || isDigitC c || c = '-' || c = '@' || c = '.') = true) ∧
    ∃ datePart slug,
      ev.uid = datePart ++ '-' :: (slug ++ '@' :: "boxing247-calendar".data) ∧
      datePart.length = 8 ∧ datePart.all isDigitC = true ∧
      slug.all isSlugChar = true ∧
      (slug ≠ [] → matchesUidPattern ev.uid = true) := by
  obtain ⟨card, hcard, hpc⟩ := mem_build h
  obtain ⟨f, startW, hp, rfl⟩ := processCard_some_shape hpc
  obtain ⟨hmth, hd, hdl⟩ := parse_shape hp
  obtain ⟨dp, slug, he, hl8, hall, hslug, hpat, hchars⟩ := uidOf_shape hmth hd hdl hy2
  exact ⟨hchars, dp, slug, he, hl8, hall, hslug, hpat⟩

theorem c5_uid_shape_witness :
    (∀ c ∈ sampleEvent.uid,
      (isLowerC c || isDigitC c || c = '-' || c = '@' || c = '.') = true) ∧
    ∃ datePart slug,
      sampleEvent.uid = datePart ++ '-' :: (slug ++ '@' :: "boxing247-calendar".data) ∧
      datePart.length = 8 ∧ datePart.all isDigitC = true ∧
      slug.all isSlugChar = true ∧
      (slug ≠ [] → matchesUidPattern sampleEvent.uid = true) :=
  c5_uid_shape sampleCardText ⟨2025, 6, 1⟩ sampleEvent (by decide) (by decide) (by decide)

/-- Claim C6: with info text Live on DAZN | at 8:00 PM ET / 1:00 AM UK
and a February 5 date of any processing year, the ET branch wins by the
fixed priority order and the resolved start is 8:00 PM US-Eastern on
that date converted to the canonical zone; at year 2026 that is the
aware Chicago datetime reading 19:00 wall time on February 5 and
denoting the instant 19:00 CST, i.e. wall plus 360 minutes in UTC. -/
theorem c6_et_priority (y : Nat) (loc : Str) (hy1 : 1 ≤ y) (hy2 : y ≤ 9999) :
    extract_ringwalk_time ("Live on DAZN | at 8:00 PM ET / 1:00 AM UK".data) y 2 5 loc =
      Except.ok (some (localToCt zNewYork y 2 5 (20 * 60))) ∧
    localToCt zNewYork 2026 2 5 (20 * 60) =
      ⟨daysFromCivil 2026 2 5 * 1440 + 19 * 60,
       daysFromCivil 2026 2 5 * 1440 + 19 * 60 + 360⟩ := by
  constructor
  · unfold extract_ringwalk_time
    rw [if_neg (by decide)]
    have hs : searchTimeTarget ("Live on DAZN | at 8:00 PM ET / 1:00 AM UK".data)
        ("ET".data) = some ⟨8, 0, 1, true, 25⟩ := by decide
    rw [hs]
    have h28 : (28 : Nat) ≤ daysInMonth (y : Int) 2 := by
      unfold daysInMonth
      rw [if_pos rfl]
      split <;> omega
    have hok : strptimeOk y 2 5 ⟨8, 0, 1, true, 25⟩ = true := by
      simp only [strptimeOk, Bool.and_eq_true, decide_eq_true_eq]
      omega
    simp [hok, minutesOfTok]
  · decide

theorem c6_et_priority_witness :
    extract_ringwalk_time ("Live on DAZN | at 8:00 PM ET / 1:00 AM UK".data) 2026 2 5
        ("Montreal, Quebec, Canada".data) =
      Except.ok (some (localToCt zNewYork 2026 2 5 (20 * 60))) ∧
    localToCt zNewYork 2026 2 5 (20 * 60) =
      ⟨daysFromCivil 2026 2 5 * 1440 + 19 * 60,
       daysFromCivil 2026 2 5 * 1440 + 19 * 60 + 360⟩ :=
  c6_et_priority 2026 ("Montreal, Quebec, Canada".data) (by decide) (by decide)

/-- Claim C7: whenever the ringwalk resolver returns no start (without
raising), the assembled event starts exactly at 21:00 Chicago wall time
on the calendar date of the card. -/
theorem c7_default_start (y : Nat) (card : Str) (f : CardFields)
    (hp : parse_card_header_and_fights card = some f)
    (hx : extract_ringwalk_time (f.info.getD []) y f.monthNum (digitsVal f.dayStr) f.loc =
      Except.ok none)
    (ev : Event) (hev : processCard y card = some ev) :
    ev.startUtc =
      ctWallToUtc (daysFromCivil (y : Int) f.monthNum (digitsVal f.dayStr) * 1440 + 21 * 60) := by
  unfold processCard at hev
  rw [hp] at hev
  dsimp only at hev
  split at hev
  · exact absurd hev (by simp)
  · rw [hx] at hev
    dsimp only at hev
    split at hev
    · exact absurd hev (by simp)
    · rename_i startW heq
      split at heq
      · cases heq
        cases hev
        rfl
      · exact absurd heq (by simp)

theorem c7_default_start_witness :
    sampleEvent.startUtc =
      ctWallToUtc (daysFromCivil (2025 : Int) 2 (digitsVal ['5']) * 1440 + 21 * 60) :=
  c7_default_start 2025 sampleCardText sampleFields (by decide) (by decide)
    sampleEvent (by decide)

/-- Claim C8, counterexample: a card whose bouts text is empty after the
header split yields no headline bout even though the word versus occurs
in the span (inside the header): no re-scan of the span happens. -/
theorem c8_no_rescan_counterexample :
    (parse_card_header_and_fights ("February 5: Alice versus Bob (TBA)".data)).map
        CardFields.mainFight = some none ∧
    containsSub versusStr ("February 5: Alice versus Bob (TBA)".data) = true := by
  refine ⟨by decide, by decide⟩

/-- Claim C8, amended: when the bouts text left by the header split is
empty, the headline bout is simply absent; the extractor performs no
re-scan of the original span. -/
theorem c8_empty_bouts_no_bout (card : Str) (hit : AnchorHit)
    (hm : matchAnchorAt (normalize_space card) = some hit)
    (he : (headerFightsSplit (stripWs hit.rest)).2 = [])
    (f : CardFields) (hp : parse_card_header_and_fights card = some f) :
    f.mainFight = none := by
  unfold parse_card_header_and_fights at hp
  dsimp only at hp
  rw [hm] at hp
  dsimp only at hp
  rw [he] at hp
  cases hp
  rfl

theorem c8_empty_bouts_no_bout_witness :
    (⟨"February".data, 2, ['5'], "Alice versus Bob".data, some ("TBA".data), none⟩ :
      CardFields).mainFight = none :=
  c8_empty_bouts_no_bout ("February 5: Alice versus Bob (TBA)".data)
    ⟨"February".data, 2, ['5'], " Alice versus Bob (TBA)".data⟩
    (by decide) (by decide) _ (by decide)

/-- Claim C9: the batch is the per-card computation composed over the
segmented cards: a card that fails (every raised exception is a none of
processCard) contributes nothing, the remaining cards are processed in
order, and every emitted event is the complete record of exactly one
card. -/
theorem c9_per_card_containment (text : Str) (now : Today) :
    build_events_from_text text now =
      (split_into_cards text).filterMap (processCard now.year) ∧
    ∀ ev ∈ build_events_from_text text now,
      ∃ card ∈ split_into_cards text, processCard now.year card = some ev := by
  exact ⟨build_eq_filterMap now.year text, fun ev h => mem_build h⟩

/-- Claim C10: a parsed card whose cleaned location is empty is skipped
by the truthiness check and never yields an event, date anchor
notwithstanding. -/
theorem c10_empty_location_no_event (y : Nat) (card : Str) (f : CardFields)
    (hp : parse_card_header_and_fights card = some f) (hl : f.loc = []) :
    processCard y card = none := by
  unfold processCard
  rw [hp]
  simp [hl]

theorem c10_empty_location_no_event_witness :
    processCard 2025 ("February 5: (TBA)".data) = none :=
  c10_empty_location_no_event 2025 ("February 5: (TBA)".data)
    ⟨"February".data, 2, ['5'], [], some ("TBA".data), none⟩ (by decide) rfl

end Boxing
